import Mathlib

/-!
# Verification of the product-management backend

A shallow embedding, in Lean, of the JavaScript backend of this repository
(Express + Mongoose + Cloudinary product/category CRUD service), together
with theorems settling the specification claims about it.

Conventions of the embedding:

* The document store is modelled as a Lean list of records, in insertion
  order.  `Model.find` with a query becomes `List.filter`, `findOne` becomes
  `List.find?`/`List.any`, `findByIdAndDelete` becomes `List.filter` on the id.
* The MongoDB single-key sort is modelled as a stable sort
  (`List.insertionSort`) on the requested key; a document that lacks the
  requested field carries the bottom sort value `vMissing`, so that sorting by
  a key that names no stored field compares all documents equal.
* JavaScript truthiness is made explicit: a string is falsy exactly when it is
  empty, a number is falsy exactly when it is zero, an absent value is `none`.
* The scalar request fields carry the values of a JSON request body
  (`name`/`category` strings, `price`/`stock` numbers); `price` is a rational
  (JS numbers; no claim here depends on binary floating point) and `stock` an
  integer.
* External collaborators (Cloudinary, jsonwebtoken) are modelled as function
  parameters: `upload`/`uploadUrl` return the reference URL the Media
  Uploader would answer with, and token verification is an arbitrary
  function into `VerifyOutcome`.  The `fields.existingImages` value is a JSON
  string in the code; the embedding carries the *outcome* of `JSON.parse` on
  it (`parseError`, a non-array value, or an array of strings), with `none`
  standing for an absent or empty (falsy) raw string.
-/

namespace ProductApp

/-! ## JavaScript string primitives -/

/-- Whether the second character list begins with the pattern given first. -/
def isStartOf : List Char → List Char → Bool
  | [], _ => true
  | _ :: _, [] => false
  | a :: as, b :: bs => a == b && isStartOf as bs

/-- The pattern `pat` occurs as a contiguous run somewhere in the list. -/
def occursIn (pat : List Char) : List Char → Bool
  | [] => isStartOf pat []
  | b :: bs => isStartOf pat (b :: bs) || occursIn pat bs

/-- JavaScript `s.includes(pat)`: substring containment. -/
def jsIncludes (s pat : String) : Bool :=
  occursIn pat.toList s.toList

/-- JavaScript `s.startsWith(pat)`. -/
def jsStartsWith (s pat : String) : Bool :=
  isStartOf pat.toList s.toList

/-- JavaScript `s.trim()` (the code only ever trims over the common ASCII
whitespace characters that `Char.isWhitespace` covers). -/
def jsTrim (s : String) : String :=
  ⟨((s.toList.dropWhile Char.isWhitespace).reverse.dropWhile Char.isWhitespace).reverse⟩

/-- ASCII lower-casing of one character (the case folding `toLowerCase`
performs on the ASCII names this backend handles). -/
def lowerChar (c : Char) : Char :=
  if 'A' ≤ c && c ≤ 'Z' then Char.ofNat (c.toNat + 32) else c

/-- JavaScript `s.toLowerCase()` restricted to ASCII case folding. -/
def lowerStr (s : String) : String :=
  ⟨s.toList.map lowerChar⟩

/-- Strict lexicographic order on character lists (code-point order). -/
def lexLT : List Char → List Char → Bool
  | _, [] => false
  | [], _ :: _ => true
  | a :: as, b :: bs => decide (a < b) || (a == b && lexLT as bs)

/-- Lexicographic `≤` on strings: the simple binary collation MongoDB sorts
strings with. -/
def strLE (a b : String) : Bool :=
  !lexLT b.toList a.toList

/-- JavaScript `s.split(' ')`: split on every single space, keeping empty
pieces. -/
def splitSp : List Char → List (List Char)
  | [] => [[]]
  | c :: cs =>
      if c == ' ' then [] :: splitSp cs
      else
        match splitSp cs with
        | [] => [[c]]
        | p :: ps => (c :: p) :: ps

/-- JavaScript `s.split(' ')` on strings. -/
def jsSplitSpace (s : String) : List String :=
  (splitSp s.toList).map fun l => ⟨l⟩

/-! ## Data model (`models/Product.js`, `models/Category.js`, `models/User.js`) -/

/-- A stored product document. -/
structure Product where
  id : Nat
  name : String
  price : ℚ
  category : String
  stock : Int
  images : List String
deriving Repr, DecidableEq

/-- A stored category document. -/
structure Category where
  id : Nat
  name : String
deriving Repr, DecidableEq

/-- A stored user document (only the fields the middleware reads). -/
structure User where
  id : Nat
  username : String
deriving Repr, DecidableEq

/-! ## Product listing (`getProducts`)

`GET /api/products` builds `query` from `search`/`category`, a one-key `sort`
object from `sortBy`/`sortOrder`, and slices with `skip((page-1)*limit)` /
`limit(limit)`.  The regex search is modelled as case-insensitive substring
matching (the code passes the raw search string as a `$regex` with option
`i`).  `none` for `search`/`category` covers both an absent and an empty
(falsy) query parameter. -/

/-- The value a product document carries under a given sort key.  A stored
document owns nine fields: the four scalars (`name`, `price`, `category`,
`stock`), the `images` array, `_id`, and the schema-maintained `createdAt`,
`updatedAt` (from `timestamps: true`) and `__v`.  `vId` is the `_id` value
(ordered by value, as ObjectIds are); `vOut` marks a key naming one of the
schema-maintained fields (`createdAt`, `updatedAt`, `__v`) whose values the
model does not carry — MongoDB does order by them, so no theorem below
asserts anything about the order a sort on them produces; `vMissing` is a
key naming no stored field at all (all documents compare equal there, as
MongoDB treats a sort on an absent field). -/
inductive SortVal where
  | vMissing
  | vNum (q : ℚ)
  | vStr (s : String)
  | vId (n : Nat)
  | vOut (key : String)
deriving Repr, DecidableEq

/-- BSON comparison order restricted to the values that occur here:
missing < numbers < strings < ObjectIds; numbers by value, strings
lexicographically, ids by value; `vOut` values all compare equal (their
real order is outside the model). -/
def svLE : SortVal → SortVal → Bool
  | .vMissing, _ => true
  | .vNum _, .vMissing => false
  | .vNum a, .vNum b => decide (a ≤ b)
  | .vNum _, _ => true
  | .vStr _, .vMissing => false
  | .vStr _, .vNum _ => false
  | .vStr a, .vStr b => strLE a b
  | .vStr _, _ => true
  | .vId _, .vMissing => false
  | .vId _, .vNum _ => false
  | .vId _, .vStr _ => false
  | .vId a, .vId b => decide (a ≤ b)
  | .vId _, .vOut _ => true
  | .vOut _, .vOut _ => true
  | .vOut _, _ => false

/-- The least element of an images array under the string order. -/
def minElem? : List String → Option String
  | [] => none
  | s :: rest =>
      match minElem? rest with
      | none => some s
      | some t => if strLE s t then some s else some t

/-- The greatest element of an images array under the string order. -/
def maxElem? : List String → Option String
  | [] => none
  | s :: rest =>
      match maxElem? rest with
      | none => some s
      | some t => if strLE t s then some s else some t

/-- The value of `sort[sortBy]`: the sort value of a product under the key
`sortBy`.  A sort on the `images` array uses its least element ascending and
its greatest element descending (MongoDB's array-sort rule); an empty array
sorts like a null/missing value.  `_id` sorts by its value.  Every key
outside the nine stored fields names no field and yields `vMissing`. -/
def sortField (sortBy sortOrder : String) (p : Product) : SortVal :=
  if sortBy = "name" then .vStr p.name
  else if sortBy = "price" then .vNum p.price
  else if sortBy = "category" then .vStr p.category
  else if sortBy = "stock" then .vNum (p.stock : ℚ)
  else if sortBy = "images" then
    match (if sortOrder = "desc" then maxElem? p.images else minElem? p.images) with
    | some s => .vStr s
    | none => .vMissing
  else if sortBy = "_id" then .vId p.id
  else if sortBy = "createdAt" then .vOut sortBy
  else if sortBy = "updatedAt" then .vOut sortBy
  else if sortBy = "__v" then .vOut sortBy
  else .vMissing

/-- The document order induced by `{ [sortBy]: sortOrder === 'desc' ? -1 : 1 }`. -/
def prodLE (sortBy sortOrder : String) (a b : Product) : Bool :=
  if sortOrder = "desc" then
    svLE (sortField sortBy sortOrder b) (sortField sortBy sortOrder a)
  else svLE (sortField sortBy sortOrder a) (sortField sortBy sortOrder b)

/-- Stable sort of the filtered documents on the requested key. -/
def sortProducts (sortBy sortOrder : String) (l : List Product) : List Product :=
  l.insertionSort (fun a b => prodLE sortBy sortOrder a b = true)

/-- The `query` object: case-insensitive substring search on `name`, exact
match on `category` unless it is the sentinel `"all"`. -/
def matchesQuery (search category : Option String) (p : Product) : Bool :=
  (match search with
   | some s => jsIncludes (lowerStr p.name) (lowerStr s)
   | none => true) &&
  (match category with
   | some c => if c = "all" then true else p.category == c
   | none => true)

/-- The pagination block of a listing response. -/
structure Pagination where
  currentPage : Nat
  totalPages : Nat
  totalItems : Nat
  itemsPerPage : Nat
deriving Repr, DecidableEq

/-- A listing response. -/
structure ListResult where
  products : List Product
  pagination : Pagination
deriving Repr, DecidableEq

/-- The handler of `GET /api/products`.  `page` and `limit` are the parsed positive integers
(`Math.ceil(totalItems / limit)` over positive naturals is
`(totalItems + limit - 1) / limit`). -/
def getProducts (store : List Product) (search category : Option String)
    (sortBy sortOrder : String) (page limit : Nat) : ListResult :=
  let filtered := store.filter (matchesQuery search category)
  let sorted := sortProducts sortBy sortOrder filtered
  let skip := (page - 1) * limit
  let totalItems := filtered.length
  let totalPages := (totalItems + limit - 1) / limit
  { products := (sorted.drop skip).take limit
    pagination :=
      { currentPage := page
        totalPages := totalPages
        totalItems := totalItems
        itemsPerPage := limit } }

/-! ## Product creation and update (`createProduct`, `updateProduct`)

The controllers first extract scalar fields (collapsing formidable's
one-element arrays), validate, check category existence, process images and
only then write.  `NOT_FOUND` on update is a guard executed before anything
else; the update model therefore operates on the product document that
`findById` returned, and the product value in the result is the stored state
after the call (unchanged whenever the controller returns early with an
error). -/

/-- An uploaded file as formidable presents it. -/
structure FileUpload where
  filepath : String
  mimetype : Option String
deriving Repr, DecidableEq

/-- One entry of the parsed `existingImages` JSON array.  JSON entries need
not be strings: a falsy entry (`null`, `false`, `0`) is skipped by the
`url &&` guard; a truthy non-string entry with no usable `.includes` method
(a number, `true`, or a plain object) makes `url.includes('cloudinary.com')`
throw a TypeError inside the surrounding try, aborting the whole forEach —
the pushes already made survive, the rest of the array is dropped, and the
request continues normally.  (A truthy *array* entry, which owns
`Array.prototype.includes`, is outside the model.) -/
inductive KeepEntry where
  | str (s : String)
  | falsy
  | throwing
deriving Repr, DecidableEq

/-- Outcome of `JSON.parse(fields.existingImages)`. -/
inductive ExistingField where
  | parseError
  | nonArray
  | arr (entries : List KeepEntry)
deriving Repr, DecidableEq

/-- One entry of a legacy `req.body.images` JSON array (the `typeof` check in
the code only keeps string entries). -/
inductive LegacyEntry where
  | str (s : String)
  | nonString
deriving Repr, DecidableEq

/-- The per-field validation error map. -/
structure FieldErrors where
  nameErr : Bool
  priceErr : Bool
  categoryErr : Bool
  stockErr : Bool
deriving Repr, DecidableEq

/-- The check `Object.keys(errors).length > 0`. -/
def hasAnyErr (e : FieldErrors) : Bool :=
  e.nameErr || e.priceErr || e.categoryErr || e.stockErr

/-- The files of `files.images` that pass the
`file.mimetype && file.mimetype.startsWith('image/')` gate. -/
def imageFiles (files : List FileUpload) : List FileUpload :=
  files.filter fun f =>
    match f.mimetype with
    | some m => !m.isEmpty && jsStartsWith m "image/"
    | none => false

/-- Upload every accepted file; `upload` is the Media Uploader returning the
reference URL (`uploadFileToCloudinary`; the code swallows a per-file upload
failure, which no claim here depends on). -/
def processFiles (upload : String → String) (files : List FileUpload) : List String :=
  (imageFiles files).map fun f => upload f.filepath

/-- The `existingUrls.forEach` body, run left to right: push a truthy string
entry when `url.includes('cloudinary.com')`; skip a falsy entry; a throwing
entry aborts the loop (its TypeError lands in the surrounding catch),
keeping the pushes made so far. -/
def keepMerge : List KeepEntry → List String
  | [] => []
  | .str s :: rest =>
      if !s.isEmpty && jsIncludes s "cloudinary.com" then s :: keepMerge rest
      else keepMerge rest
  | .falsy :: rest => keepMerge rest
  | .throwing :: _ => []

/-- The contribution of `fields.existingImages` to the candidate list: the
forEach over a parsed array, nothing otherwise. -/
def filterExisting : ExistingField → List String
  | .arr entries => keepMerge entries
  | _ => []

/-- Create request, scalar fields as JSON values (`none` = absent). -/
structure CreateReq where
  name : Option String
  price : Option ℚ
  category : Option String
  stock : Option Int
  fileImages : Option (List FileUpload)
  existingImages : Option ExistingField
deriving Repr, DecidableEq

/-- The creation validation block (`!name || name.trim().length < 2`, etc.;
string falsiness and the `0`-is-falsy number check written out). -/
def createErrors (r : CreateReq) : FieldErrors where
  nameErr := match r.name with
    | none => true
    | some s => s.isEmpty || (jsTrim s).length < 2
  priceErr := match r.price with
    | none => true
    | some p => (p == 0) || decide (p ≤ 0)
  categoryErr := match r.category with
    | none => true
    | some c => c.isEmpty || (jsTrim c).length == 0
  stockErr := match r.stock with
    | none => true
    | some k => decide (k < 0)

/-- Result of `POST /api/products`. -/
inductive CreateResult where
  | validationError (errors : FieldErrors)
  | invalidCategory
  | created (p : Product)
deriving Repr, DecidableEq

/-- Result of `POST /api/products` together with its effects: the Media
Uploader calls performed (filepaths, in order) and the product store after
the call. -/
structure CreateOutcome where
  result : CreateResult
  uploads : List String
  store : List Product
deriving Repr, DecidableEq

/-- The controller `createProduct`; `newId` stands for the id the store
assigns to the inserted document. -/
def createProduct (upload : String → String) (cats : List Category)
    (store : List Product) (r : CreateReq) (newId : Nat) : CreateOutcome :=
  let errors := createErrors r
  if hasAnyErr errors then
    { result := .validationError errors, uploads := [], store := store }
  else
    let cat := jsTrim (r.category.getD "")
    if !(cats.any fun c => c.name == cat) then
      { result := .invalidCategory, uploads := [], store := store }
    else
      let fromFiles := match r.fileImages with
        | some fs => processFiles upload fs
        | none => []
      let uploaded := match r.fileImages with
        | some fs => (imageFiles fs).map (fun f => f.filepath)
        | none => []
      let fromExisting := match r.existingImages with
        | some ef => filterExisting ef
        | none => []
      let p : Product :=
        { id := newId
          name := jsTrim (r.name.getD "")
          price := r.price.getD 0
          category := cat
          stock := r.stock.getD 0
          images := fromFiles ++ fromExisting }
      { result := .created p, uploads := uploaded, store := store ++ [p] }

/-- Update request.  `multipart` records whether the request carried
`multipart/form-data`; `bodyImages` is the legacy `req.body.images` JSON
array (`none` when absent, falsy, or not an array — a non-multipart request
is the only place the code can see it as an array). -/
structure UpdateReq where
  multipart : Bool
  name : Option String
  price : Option ℚ
  category : Option String
  stock : Option Int
  fileImages : Option (List FileUpload)
  existingImages : Option ExistingField
  bodyImages : Option (List LegacyEntry)
deriving Repr, DecidableEq

/-- The extraction `fields.name ? … : undefined`: a falsy present string collapses to
absent. -/
def effStr : Option String → Option String
  | some s => if s.isEmpty then none else some s
  | none => none

/-- The extraction `fields.price ? … : undefined` on a JSON number: `0` is falsy. -/
def effRat : Option ℚ → Option ℚ
  | some p => if p == 0 then none else some p
  | none => none

/-- The extraction `fields.stock ? … : undefined` on a JSON number: `0` is falsy. -/
def effInt : Option Int → Option Int
  | some k => if k == 0 then none else some k
  | none => none

/-- The update validation block: each rule fires only when the (effective)
field is present. -/
def updateErrors (name category : Option String) (price : Option ℚ)
    (stock : Option Int) : FieldErrors where
  nameErr := match name with
    | some s => (jsTrim s).length < 2
    | none => false
  priceErr := match price with
    | some p => decide (p ≤ 0)
    | none => false
  categoryErr := match category with
    | some c => (jsTrim c).length == 0
    | none => false
  stockErr := match stock with
    | some k => decide (k < 0)
    | none => false

/-- One legacy `req.body.images` entry: a kept Media-Uploader URL, a re-hosted
`http` URL (`uploadUrl` models `uploadImageFromUrl`), or nothing. -/
def processLegacyEntry (uploadUrl : String → String) : LegacyEntry → Option String
  | .str s =>
      if !s.isEmpty && !(jsTrim s).isEmpty then
        if jsIncludes s "cloudinary.com" then some s
        else if jsIncludes s "http" then some (uploadUrl s)
        else none
      else none
  | .nonString => none

/-- The image-reconciliation block of `updateProduct` (lines 349–424): new
uploads, then retained `existingImages`, then the keep-old fallback, then the
legacy wholesale replacement (non-multipart only). -/
def candidateImages (upload uploadUrl : String → String) (r : UpdateReq)
    (old : List String) : List String :=
  let fromFiles := match r.fileImages with
    | some fs => processFiles upload fs
    | none => []
  let fromExisting := match r.existingImages with
    | some ef => filterExisting ef
    | none => []
  let processed1 := fromFiles ++ fromExisting
  let processed2 :=
    if processed1.length == 0 && r.fileImages.isNone && r.existingImages.isNone then
      old
    else processed1
  if !r.multipart then
    match r.bodyImages with
    | some entries =>
        if entries.length > 0 then entries.filterMap (processLegacyEntry uploadUrl)
        else processed2
    | none => processed2
  else processed2

/-- Result of `PUT /api/products/:id` on a found product. -/
inductive UpdateResult where
  | validationError (errors : FieldErrors)
  | invalidCategory
  | updated
deriving Repr, DecidableEq

/-- The controller `updateProduct`, after the `findById` guard: result plus
the stored product state after the call (unchanged on an error return). -/
def updateProduct (upload uploadUrl : String → String) (cats : List Category)
    (product : Product) (r : UpdateReq) : UpdateResult × Product :=
  let name := effStr r.name
  let price := effRat r.price
  let category := effStr r.category
  let stock := effInt r.stock
  let errors := updateErrors name category price stock
  if hasAnyErr errors then
    (.validationError errors, product)
  else if category.isSome && !(cats.any fun c => c.name == jsTrim (category.getD "")) then
    (.invalidCategory, product)
  else
    let processed := candidateImages upload uploadUrl r product.images
    let p1 : Product :=
      { product with
        name := match name with | some s => jsTrim s | none => product.name
        price := match price with | some q => q | none => product.price
        category := match category with | some c => jsTrim c | none => product.category
        stock := match stock with | some k => k | none => product.stock }
    let p2 :=
      if r.fileImages.isSome || r.existingImages.isSome || r.bodyImages.isSome
          || processed.length > 0 then
        { p1 with images := processed }
      else p1
    (.updated, p2)

/-! ## Category deletion (`deleteCategory`) -/

/-- Result of `DELETE /api/categories/:id`. -/
inductive DeleteResult where
  | notFound
  | inUse
  | success
deriving Repr, DecidableEq

/-- The controller `deleteCategory`: `findById`, then `Product.findOne({category: name})`,
then `findByIdAndDelete`.  Returns the result and the category store after
the call. -/
def deleteCategory (cats : List Category) (products : List Product) (id : Nat) :
    DeleteResult × List Category :=
  match cats.find? (fun c => c.id == id) with
  | none => (.notFound, cats)
  | some c =>
      if products.any (fun p => p.category == c.name) then
        (.inUse, cats)
      else
        (.success, cats.filter (fun x => !(x.id == id)))

/-! ## Authentication middleware (`protect`, wired by `router.use(protect)`) -/

/-- Outcome of `jwt.verify(token, secret)`: the library throws on a
malformed, tampered/wrongly-signed or expired token, and returns the decoded
payload (here: the embedded user id) otherwise. -/
inductive VerifyOutcome where
  | throws
  | ok (userId : Nat)
deriving Repr, DecidableEq

/-- The token the middleware extracts from the `Authorization` header:
`startsWith('Bearer')` then `split(' ')[1]`. -/
def tokenOf : Option String → Option String
  | some h => if jsStartsWith h "Bearer" then (jsSplitSpace h).get? 1 else none
  | none => none

/-- Outcome of the `protect` middleware. -/
inductive AuthCheck where
  | unauthorized
  | authorized (u : User)
deriving Repr, DecidableEq

/-- The `protect` middleware: missing/falsy token, a throwing `jwt.verify`,
or an id that resolves to no user all yield the 401 `UNAUTHORIZED` return;
otherwise the request proceeds as the found user. -/
def protect (users : List User) (verify : String → VerifyOutcome)
    (authHeader : Option String) : AuthCheck :=
  match tokenOf authHeader with
  | none => .unauthorized
  | some t =>
      if t.isEmpty then .unauthorized
      else
        match verify t with
        | .throws => .unauthorized
        | .ok uid =>
            match users.find? (fun u => u.id == uid) with
            | none => .unauthorized
            | some u => .authorized u

/-- A protected response: the 401 body, or whatever the route handler
answered. -/
inductive ProtectedResponse (ρ : Type) where
  | unauthorized
  | handled (r : ρ)
deriving Repr, DecidableEq

/-- The composition `router.use(protect)` followed by a route handler (productRoutes wires
every product route this way): the handler — which may mutate the store
state `σ` — runs only when `protect` called `next()`. -/
def protectedCall {σ ρ : Type} (users : List User) (verify : String → VerifyOutcome)
    (authHeader : Option String) (handler : User → σ → σ × ρ) (s : σ) :
    σ × ProtectedResponse ρ :=
  match protect users verify authHeader with
  | .unauthorized => (s, .unauthorized)
  | .authorized u =>
      let hr := handler u s
      (hr.1, .handled hr.2)

/-- A demo product for the listing witness. -/
def c5p (n : Nat) (s : String) : Product := ⟨n, s, (n : ℚ), "Cat", (n : ℤ), []⟩

/-- Twelve products stored in scrambled order; sorted by name ascending they
read a…l. -/
def c5Store : List Product :=
  [c5p 7 "g", c5p 11 "k", c5p 1 "a", c5p 4 "d", c5p 10 "j", c5p 2 "b",
   c5p 12 "l", c5p 5 "e", c5p 3 "c", c5p 9 "i", c5p 6 "f", c5p 8 "h"]

/-- A creation request with an invalid price (0) and invalid stock (-1). -/
def c6wReq : CreateReq :=
  { name := some "ok", price := some 0, category := some "Tools",
    stock := some (-1), fileImages := none, existingImages := none }

/-- A creation request naming a non-existent category *and* carrying an
invalid price. -/
def c7Req : CreateReq :=
  { name := some "Widget", price := some 0, category := some "ghost", stock := some 1,
    fileImages := none, existingImages := none }

/-- A field-valid creation request naming a non-existent category, with a
pending image file. -/
def c7wReq : CreateReq :=
  { name := some "Widget", price := some 10, category := some "ghost", stock := some 0,
    fileImages := some [⟨"/tmp/pic.jpg", some "image/jpeg"⟩], existingImages := none }

/-- Category store for the C8 witness. -/
def c8Cats : List Category := [⟨1, "Tools"⟩, ⟨2, "Toys"⟩]

/-- Product store for the C8 witness: one product references "Tools". -/
def c8Prods : List Product := [⟨1, "Widget", 10, "Tools", 5, []⟩]

/-- A product holding one image, updated by the C10 counterexample. -/
def c10Prod : Product :=
  ⟨1, "Widget", 10, "Tools", 5, ["https://res.cloudinary.com/demo/a.png"]⟩

/-- A non-multipart update whose legacy `images` array is non-empty but
yields no storable URL. -/
def c10Req : UpdateReq :=
  { multipart := false, name := none, price := none, category := none, stock := none,
    fileImages := none, existingImages := none, bodyImages := some [.str "x"] }

/-! ## Order lemmas for the sort relation -/

/-- The value `Math.ceil(a / b)` characterised over the naturals: `(a + b - 1) / b` is
the least `m` with `a ≤ m * b`. -/
theorem ceilPages_spec (a b : ℕ) (hb : 0 < b) :
    a ≤ ((a + b - 1) / b) * b ∧ ∀ m : ℕ, a ≤ m * b → (a + b - 1) / b ≤ m := by
  constructor
  · have h := (Nat.div_le_iff_le_mul_add_pred hb).mp
      (le_refl ((a + b - 1) / b))
    rw [Nat.mul_comm]
    generalize b * ((a + b - 1) / b) = t at h ⊢
    omega
  · intro m hm
    rw [Nat.div_le_iff_le_mul_add_pred hb]
    rw [Nat.mul_comm] at hm
    generalize b * m = t at hm ⊢
    omega

/-! ## The claims -/

/-- Claim C1: an update request that supplies no new uploaded files, no
`existingImages` keep list and no legacy flat image-URL list leaves the
stored images list identical (in length and content) to what it was before
the call, on every path the controller can take. -/
theorem C1_update_carries_images_forward (upload uploadUrl : String → String)
    (cats : List Category) (product : Product) (r : UpdateReq)
    (hf : r.fileImages = none) (he : r.existingImages = none)
    (hb : r.bodyImages = none) :
    (updateProduct upload uploadUrl cats product r).2.images = product.images := by
  unfold updateProduct candidateImages
  rw [hf, he, hb]
  simp only [Option.isNone_none, Option.isSome_none, Bool.false_or,
    List.nil_append, List.length_nil]
  split
  · rfl
  · split
    · rfl
    · simp only [beq_self_eq_true, Bool.and_self, Bool.true_and, if_true]
      split
      · split <;> rfl
      · split <;> rfl

/-- Witness for C1: a scalar-only update (a new name) on a product holding
three images leaves all three stored images in place. -/
theorem C1_update_carries_images_forward_witness :
    ((⟨false, some "Gadget", none, none, none, none, none, none⟩ : UpdateReq).fileImages
        = none) ∧
    (updateProduct (fun s => s) (fun s => s) [⟨1, "Tools"⟩]
        ⟨1, "Widget", 10, "Tools", 5, ["https://res.cloudinary.com/demo/a.png",
          "https://res.cloudinary.com/demo/b.png", "https://res.cloudinary.com/demo/c.png"]⟩
        ⟨false, some "Gadget", none, none, none, none, none, none⟩).2.images
      = ["https://res.cloudinary.com/demo/a.png", "https://res.cloudinary.com/demo/b.png",
          "https://res.cloudinary.com/demo/c.png"] :=
  ⟨rfl, C1_update_carries_images_forward (fun s => s) (fun s => s) [⟨1, "Tools"⟩]
    ⟨1, "Widget", 10, "Tools", 5, ["https://res.cloudinary.com/demo/a.png",
      "https://res.cloudinary.com/demo/b.png", "https://res.cloudinary.com/demo/c.png"]⟩
    ⟨false, some "Gadget", none, none, none, none, none, none⟩ rfl rfl rfl⟩

/-- Claim C2, code bug: the update controller extracts each scalar with
`fields.x ? … : undefined`, so a JSON body that supplies `stock: 0` — falsy
in JavaScript — is treated as if `stock` were absent: the update succeeds
but the stored stock stays at its old value instead of becoming `0`
(creation, by contrast, checks `stock === undefined` and does store `0`).
This theorem evaluates the embedded controllers at the failing input: an
update of a stock-5 product with `{stock: 0}` keeps stock 5, while creating
with `stock = 0` stores stock 0. -/
theorem C2_stock_zero_update_ignored :
    (updateProduct (fun s => s) (fun s => s) [⟨1, "Tools"⟩]
        ⟨1, "Widget", 10, "Tools", 5, []⟩
        ⟨false, none, none, none, some 0, none, none, none⟩).1 = .updated ∧
    (updateProduct (fun s => s) (fun s => s) [⟨1, "Tools"⟩]
        ⟨1, "Widget", 10, "Tools", 5, []⟩
        ⟨false, none, none, none, some 0, none, none, none⟩).2.stock = 5 ∧
    ((createProduct (fun s => s) [⟨1, "Tools"⟩] []
        ⟨some "Widget", some 10, some "Tools", some 0, none, none⟩ 1).result
      = .created ⟨1, "Widget", 10, "Tools", 0, []⟩) := by
  refine ⟨by decide, by decide, by decide⟩

/-- When an update succeeds and the request carried a keep list, the stored
images are exactly the candidate list. -/
theorem updateProduct_images_eq (upload uploadUrl : String → String)
    (cats : List Category) (product : Product) (r : UpdateReq)
    (hres : (updateProduct upload uploadUrl cats product r).1 = .updated)
    (hcond : (r.fileImages.isSome || r.existingImages.isSome || r.bodyImages.isSome
        || decide ((candidateImages upload uploadUrl r product.images).length > 0))
        = true) :
    (updateProduct upload uploadUrl cats product r).2.images =
      candidateImages upload uploadUrl r product.images := by
  unfold updateProduct at hres ⊢
  dsimp only [] at hres ⊢
  split at hres
  · exact absurd hres (by simp)
  · split at hres
    · exact absurd hres (by simp)
    · next h1 h2 =>
        rw [if_neg h1, if_neg h2, if_pos hcond]

/-- A string has length 0 exactly when it is empty. -/
theorem strLength_eq_zero {s : String} : s.length = 0 ↔ s = "" := by
  cases s with
  | mk data =>
      constructor
      · intro h
        have hd : data = [] := List.length_eq_zero.mp h
        rw [hd]
      · intro h
        rw [h]
        rfl

/-- Claim C5: for positive `page` and `limit`, the listing returns the slice
of length ≤ `limit` starting at offset `(page-1)*limit` of the sorted
filtered documents, `totalItems` is the full filtered count, and
`totalPages` is the ceiling of `totalItems / limit` (characterised as the
least `m` with `totalItems ≤ m * limit`). -/
theorem C5_pagination (store : List Product) (search category : Option String)
    (sortBy sortOrder : String) (page limit : ℕ)
    (_hp : 1 ≤ page) (hl : 1 ≤ limit) :
    (getProducts store search category sortBy sortOrder page limit).products =
      ((sortProducts sortBy sortOrder
          (store.filter (matchesQuery search category))).drop
        ((page - 1) * limit)).take limit ∧
    (getProducts store search category sortBy sortOrder page limit).pagination.totalItems
      = (store.filter (matchesQuery search category)).length ∧
    (getProducts store search category sortBy sortOrder page limit).pagination.totalItems
      ≤ (getProducts store search category sortBy sortOrder page
          limit).pagination.totalPages * limit ∧
    (∀ m : ℕ,
      (getProducts store search category sortBy sortOrder page limit).pagination.totalItems
        ≤ m * limit →
      (getProducts store search category sortBy sortOrder page
          limit).pagination.totalPages ≤ m) :=
  ⟨rfl, rfl,
   (ceilPages_spec (store.filter (matchesQuery search category)).length limit hl).1,
   (ceilPages_spec (store.filter (matchesQuery search category)).length limit hl).2⟩

/-- Witness for C5: `page=2, limit=5` over 12 products sorted by name
ascending returns items 6–10 (names f…j) with `totalPages = 3`. -/
theorem C5_pagination_witness :
    (getProducts c5Store none none "name" "asc" 2 5).products =
      ((sortProducts "name" "asc" (c5Store.filter (matchesQuery none none))).drop
        5).take 5 ∧
    (getProducts c5Store none none "name" "asc" 2 5).products =
      [c5p 6 "f", c5p 7 "g", c5p 8 "h", c5p 9 "i", c5p 10 "j"] ∧
    (getProducts c5Store none none "name" "asc" 2 5).pagination.totalPages = 3 ∧
    (getProducts c5Store none none "name" "asc" 2 5).pagination.totalItems = 12 :=
  ⟨(C5_pagination c5Store none none "name" "asc" 2 5 (by decide) (by decide)).1,
   by decide, by decide, by decide⟩

/-- Claim C6: when any of the four creation rules fails, the controller
answers a single validation error carrying the full error map, uploads
nothing and writes nothing; and each field appears in the map exactly when
its rule fails (name: trimmed length ≥ 2; price: > 0; category: trimmed
non-empty; stock: ≥ 0; an absent field always fails its rule). -/
theorem C6_create_validation (upload : String → String) (cats : List Category)
    (store : List Product) (r : CreateReq) (newId : ℕ)
    (h : hasAnyErr (createErrors r) = true) :
    (createProduct upload cats store r newId).result
      = .validationError (createErrors r) ∧
    (createProduct upload cats store r newId).store = store ∧
    (createProduct upload cats store r newId).uploads = [] ∧
    ((createErrors r).nameErr = true ↔
      (r.name = none ∨ ∃ s, r.name = some s ∧ (jsTrim s).length < 2)) ∧
    ((createErrors r).priceErr = true ↔
      (r.price = none ∨ ∃ p, r.price = some p ∧ p ≤ 0)) ∧
    ((createErrors r).categoryErr = true ↔
      (r.category = none ∨ ∃ c, r.category = some c ∧ jsTrim c = "")) ∧
    ((createErrors r).stockErr = true ↔
      (r.stock = none ∨ ∃ k, r.stock = some k ∧ k < 0)) := by
  have e : createProduct upload cats store r newId =
      { result := .validationError (createErrors r), uploads := [], store := store } := by
    unfold createProduct
    dsimp only []
    rw [if_pos h]
  refine ⟨by rw [e], by rw [e], by rw [e], ?_, ?_, ?_, ?_⟩
  · cases hn : r.name with
    | none => simp [createErrors, hn]
    | some s =>
        simp only [createErrors, hn, Bool.or_eq_true, decide_eq_true_eq,
          Option.some.injEq, reduceCtorEq, false_or]
        constructor
        · rintro (he | hlt)
          · refine ⟨s, rfl, ?_⟩
            rw [(String.isEmpty_iff s).mp he]
            decide
          · exact ⟨s, rfl, hlt⟩
        · rintro ⟨s', hs', hlt⟩
          cases hs'
          exact Or.inr hlt
  · cases hp : r.price with
    | none => simp [createErrors, hp]
    | some p =>
        simp only [createErrors, hp, Bool.or_eq_true, decide_eq_true_eq,
          beq_iff_eq, Option.some.injEq, reduceCtorEq, false_or]
        constructor
        · rintro (h0 | hle)
          · exact ⟨p, rfl, le_of_eq h0⟩
          · exact ⟨p, rfl, hle⟩
        · rintro ⟨p', hp', hle⟩
          cases hp'
          exact Or.inr hle
  · cases hc : r.category with
    | none => simp [createErrors, hc]
    | some c =>
        simp only [createErrors, hc, Bool.or_eq_true, beq_iff_eq,
          Option.some.injEq, reduceCtorEq, false_or]
        constructor
        · rintro (he | hz)
          · refine ⟨c, rfl, ?_⟩
            rw [(String.isEmpty_iff c).mp he]
            rfl
          · exact ⟨c, rfl, strLength_eq_zero.mp hz⟩
        · rintro ⟨c', hc', hz⟩
          cases hc'
          exact Or.inr (strLength_eq_zero.mpr hz)
  · cases hk : r.stock with
    | none => simp [createErrors, hk]
    | some k =>
        simp only [createErrors, hk, decide_eq_true_eq, Option.some.injEq,
          reduceCtorEq, false_or]
        constructor
        · intro hlt
          exact ⟨k, rfl, hlt⟩
        · rintro ⟨k', hk', hlt⟩
          cases hk'
          exact hlt

/-- Witness for C6: `price = 0` and `stock = -1` produce one validation
error naming exactly those two fields, and no write. -/
theorem C6_create_validation_witness :
    hasAnyErr (createErrors c6wReq) = true ∧
    (createProduct (fun s => s) [⟨1, "Tools"⟩] [] c6wReq 1).result =
      .validationError ⟨false, true, false, true⟩ ∧
    (createProduct (fun s => s) [⟨1, "Tools"⟩] [] c6wReq 1).store = [] ∧
    (createProduct (fun s => s) [⟨1, "Tools"⟩] [] c6wReq 1).uploads = [] :=
  ⟨by decide,
   by rw [(C6_create_validation (fun s => s) [⟨1, "Tools"⟩] [] c6wReq 1 (by decide)).1]
      decide,
   (C6_create_validation (fun s => s) [⟨1, "Tools"⟩] [] c6wReq 1 (by decide)).2.1,
   (C6_create_validation (fun s => s) [⟨1, "Tools"⟩] [] c6wReq 1 (by decide)).2.2.1⟩

/-- Claim C7, counterexample: a creation request that names a category absent
from the category store but also carries an invalid price does *not* return
`InvalidCategory` — field validation runs first and answers the validation
error. -/
theorem C7_counterexample :
    ([] : List Category).any (fun c => c.name == jsTrim (c7Req.category.getD ""))
      = false ∧
    (createProduct (fun s => s) [] [] c7Req 1).result ≠ CreateResult.invalidCategory ∧
    (createProduct (fun s => s) [] [] c7Req 1).result =
      .validationError ⟨false, true, false, false⟩ :=
  ⟨by decide, by decide, by decide⟩

/-- Claim C7, amended: a creation request that *passes field validation* and
names a category that does not exist (by exact match on the trimmed name)
returns `InvalidCategory`, performs zero uploads to the Media Uploader and
writes no product record; when field validation fails, the validation error
takes precedence. -/
theorem C7_invalid_category_amended (upload : String → String)
    (cats : List Category) (store : List Product) (r : CreateReq) (newId : ℕ)
    (hval : hasAnyErr (createErrors r) = false)
    (hcat : cats.any (fun c => c.name == jsTrim (r.category.getD "")) = false) :
    (createProduct upload cats store r newId).result = .invalidCategory ∧
    (createProduct upload cats store r newId).uploads = [] ∧
    (createProduct upload cats store r newId).store = store := by
  have e : createProduct upload cats store r newId =
      { result := .invalidCategory, uploads := [], store := store } := by
    unfold createProduct
    dsimp only []
    rw [if_neg (by simp [hval]), if_pos (by simp [hcat])]
  exact ⟨by rw [e], by rw [e], by rw [e]⟩

/-- Witness for the amended C7: a field-valid request for the absent
category "ghost", carrying a pending image file, is rejected with zero
uploads and no write. -/
theorem C7_invalid_category_amended_witness :
    hasAnyErr (createErrors c7wReq) = false ∧
    (createProduct (fun s => s) [⟨1, "Tools"⟩] [] c7wReq 9).result
      = .invalidCategory ∧
    (createProduct (fun s => s) [⟨1, "Tools"⟩] [] c7wReq 9).uploads = [] ∧
    (createProduct (fun s => s) [⟨1, "Tools"⟩] [] c7wReq 9).store = [] :=
  ⟨by decide,
   (C7_invalid_category_amended (fun s => s) [⟨1, "Tools"⟩] [] c7wReq 9
      (by decide) (by decide)).1,
   (C7_invalid_category_amended (fun s => s) [⟨1, "Tools"⟩] [] c7wReq 9
      (by decide) (by decide)).2.1,
   (C7_invalid_category_amended (fun s => s) [⟨1, "Tools"⟩] [] c7wReq 9
      (by decide) (by decide)).2.2⟩

/-- Claim C8: category deletion answers `NotFound` when the id is absent
(store untouched); answers `InUse` and leaves the store — in particular the
found record — untouched when some product's category field equals the
category's name; and otherwise removes the record and succeeds. -/
theorem C8_delete_category (cats : List Category) (products : List Product)
    (id : ℕ) :
    (cats.find? (fun c => c.id == id) = none →
      deleteCategory cats products id = (.notFound, cats)) ∧
    (∀ c, cats.find? (fun c => c.id == id) = some c →
      (products.any (fun p => p.category == c.name) = true →
        deleteCategory cats products id = (.inUse, cats) ∧ c ∈ cats) ∧
      (products.any (fun p => p.category == c.name) = false →
        deleteCategory cats products id =
          (.success, cats.filter (fun x => !(x.id == id))))) := by
  constructor
  · intro h
    unfold deleteCategory
    rw [h]
  · intro c hc
    constructor
    · intro ha
      refine ⟨?_, List.mem_of_find?_eq_some hc⟩
      unfold deleteCategory
      rw [hc]
      dsimp only []
      rw [if_pos ha]
    · intro ha
      unfold deleteCategory
      rw [hc]
      dsimp only []
      rw [if_neg (by simp [ha])]

/-- Witness for C8: on a two-category store with one product referencing
"Tools", deleting "Tools" answers `InUse` leaving both records, deleting
"Toys" succeeds and removes it, and a missing id answers `NotFound`. -/
theorem C8_delete_category_witness :
    deleteCategory c8Cats c8Prods 1 = (.inUse, c8Cats) ∧
    deleteCategory c8Cats c8Prods 2 = (.success, [⟨1, "Tools"⟩]) ∧
    deleteCategory c8Cats c8Prods 3 = (.notFound, c8Cats) :=
  ⟨(((C8_delete_category c8Cats c8Prods 1).2 ⟨1, "Tools"⟩ (by decide)).1
      (by decide)).1,
   by
    rw [((C8_delete_category c8Cats c8Prods 2).2 ⟨2, "Toys"⟩ (by decide)).2
      (by decide)]
    decide,
   (C8_delete_category c8Cats c8Prods 3).1 (by decide)⟩

/-- Claim C9: a protected call whose bearer token is missing (no header, no
`Bearer` prefix, or nothing after the space), empty, rejected by the
verifier (malformed / wrong signature / expired all make `jwt.verify`
throw), or whose embedded user id resolves to no stored user, answers the
401 `UNAUTHORIZED` response and leaves the store state untouched — the
route handler never runs. -/
theorem C9_protect_unauthorized {σ ρ : Type} (users : List User)
    (verify : String → VerifyOutcome) (authHeader : Option String)
    (handler : User → σ → σ × ρ) (s : σ)
    (h : tokenOf authHeader = none ∨
         tokenOf authHeader = some "" ∨
         (∃ t, tokenOf authHeader = some t ∧ verify t = .throws) ∨
         (∃ t uid, tokenOf authHeader = some t ∧ verify t = .ok uid ∧
            users.find? (fun u => u.id == uid) = none)) :
    protectedCall users verify authHeader handler s = (s, .unauthorized) := by
  have hp : protect users verify authHeader = .unauthorized := by
    unfold protect
    rcases h with h | h | ⟨t, ht, hv⟩ | ⟨t, uid, ht, hv, hu⟩
    · rw [h]
    · rw [h]
      rfl
    · rw [ht]
      dsimp only []
      split
      · rfl
      · rw [hv]
    · rw [ht]
      dsimp only []
      split
      · rfl
      · rw [hv]
        dsimp only []
        rw [hu]
  unfold protectedCall
  rw [hp]

/-- Witness for C9: a token the verifier rejects yields the 401 response
and the (here: numeric) store state 0 is returned unchanged. -/
theorem C9_protect_unauthorized_witness :
    protectedCall ([] : List User) (fun _ => VerifyOutcome.throws)
      (some "Bearer deadbeef") (fun _ (n : ℕ) => (n + 1, "wrote")) 0
      = (0, .unauthorized) :=
  C9_protect_unauthorized [] (fun _ => VerifyOutcome.throws)
    (some "Bearer deadbeef") (fun _ (n : ℕ) => (n + 1, "wrote")) 0
    (Or.inr (Or.inr (Or.inl ⟨"deadbeef", by decide, rfl⟩)))

/-- Claim C10, counterexample: clearing the image list is *not* only possible
through a multipart request with an empty keep list: this non-multipart JSON
update with `images: ["x"]` (a non-empty legacy array with no storable
entry) empties a product's previously non-empty stored image list. -/
theorem C10_counterexample :
    c10Req.multipart = false ∧
    c10Req.existingImages = none ∧
    c10Prod.images ≠ [] ∧
    (updateProduct (fun s => s) (fun s => s) [] c10Prod c10Req).1 = .updated ∧
    (updateProduct (fun s => s) (fun s => s) [] c10Prod c10Req).2.images = [] :=
  ⟨rfl, rfl, by decide, by decide, by decide⟩

/-- Claim C10, amended: a non-multipart update whose legacy `images` field is
present but an *empty* array (with no keep list and no files) leaves the
stored image list unchanged; but clearing the list is possible not only via
a multipart empty keep list — a non-multipart `images` array that is
non-empty yet yields no storable entry also clears it, whenever the update
succeeds. -/
theorem C10_empty_legacy_amended (upload uploadUrl : String → String)
    (cats : List Category) (product : Product) :
    (∀ r : UpdateReq, r.multipart = false → r.bodyImages = some [] →
        r.existingImages = none → r.fileImages = none →
        (updateProduct upload uploadUrl cats product r).2.images
          = product.images) ∧
    (∀ (r : UpdateReq) (entries : List LegacyEntry), r.multipart = false →
        r.bodyImages = some entries → entries ≠ [] →
        entries.filterMap (processLegacyEntry uploadUrl) = [] →
        r.existingImages = none → r.fileImages = none →
        (updateProduct upload uploadUrl cats product r).1 = .updated →
        (updateProduct upload uploadUrl cats product r).2.images = []) := by
  have hcand : ∀ r : UpdateReq, r.multipart = false → r.existingImages = none →
      r.fileImages = none → ∀ entries, r.bodyImages = some entries →
      candidateImages upload uploadUrl r product.images =
        (if entries.length > 0 then entries.filterMap (processLegacyEntry uploadUrl)
         else product.images) := by
    intro r hm he hf entries hb
    unfold candidateImages
    rw [hm, he, hf, hb]
    dsimp only []
    simp only [List.length_nil, List.nil_append, Option.isNone_none,
      beq_self_eq_true, Bool.and_self, if_true, Bool.not_false, if_pos rfl]
  constructor
  · intro r hm hb he hf
    have himg : (updateProduct upload uploadUrl cats product r).2.images =
        candidateImages upload uploadUrl r product.images ∨
        (updateProduct upload uploadUrl cats product r).2.images = product.images := by
      unfold updateProduct
      dsimp only []
      split
      · exact Or.inr rfl
      · split
        · exact Or.inr rfl
        · split
          · exact Or.inl rfl
          · exact Or.inr rfl
    rcases himg with himg | himg
    · rw [himg, hcand r hm he hf [] hb]
      rfl
    · exact himg
  · intro r entries hm hb hne hfm he hf hres
    rw [updateProduct_images_eq upload uploadUrl cats product r hres
      (by rw [hb]; simp)]
    rw [hcand r hm he hf entries hb,
      if_pos (List.length_pos.mpr hne), hfm]

/-- Witness for the amended C10: `images: []` leaves the stored image
untouched, while `images: ["x"]` clears it (same product, same stores). -/
theorem C10_empty_legacy_amended_witness :
    (updateProduct (fun s => s) (fun s => s) [] c10Prod
        { c10Req with bodyImages := some [] }).2.images
      = ["https://res.cloudinary.com/demo/a.png"] ∧
    (updateProduct (fun s => s) (fun s => s) [] c10Prod c10Req).2.images = [] :=
  ⟨(C10_empty_legacy_amended (fun s => s) (fun s => s) [] c10Prod).1
      { c10Req with bodyImages := some [] } rfl rfl rfl rfl,
   (C10_empty_legacy_amended (fun s => s) (fun s => s) [] c10Prod).2
      c10Req [.str "x"] rfl rfl (by decide) (by decide) rfl rfl (by decide)⟩

end ProductApp
